import Mathlib

/-!
Verification of the routing / Fake-DNS core of the `leaf` proxy.

The Rust sources embedded here are `src/leaf/src/app/fake_dns.rs` and
`src/leaf/src/app/router.rs`.  Rust `HashMap`s are modelled as association
lists whose `insert` prepends and drops stale entries, which agrees with
`HashMap` on every `get`/`insert`/`remove` observation.  Rust `u32` values
are modelled as `Nat` with explicit `% 2^32` where wraparound could occur.
The DNS wire codec (`trust_dns_proto`) and the `Session`/`SocksAddr` types
live outside the provided sources and are abstracted respectively modelled
from the spec, as noted on the corresponding definitions.
-/

/-- Association-list lookup: the value of the first pair whose key is `k`. -/
def mfind {κ ν : Type} [DecidableEq κ] (m : List (κ × ν)) (k : κ) : Option ν :=
  match m with
  | [] => none
  | (k', v) :: rest => if k' = k then some v else mfind rest k

/-- Association-list remove, observationally `HashMap::remove`: drops every
binding of `k` (a map built through `mset` holds at most one). -/
def mdel {κ ν : Type} [DecidableEq κ] (m : List (κ × ν)) (k : κ) :
    List (κ × ν) :=
  match m with
  | [] => []
  | (k', v) :: rest => if k' = k then mdel rest k else (k', v) :: mdel rest k

/-- Association-list insert, observationally `HashMap::insert`:
the new binding shadows and removes any previous binding of `k`. -/
def mset {κ ν : Type} [DecidableEq κ] (m : List (κ × ν)) (k : κ) (v : ν) :
    List (κ × ν) :=
  (k, v) :: mdel m k

/-! ## Fake-DNS subsystem (`src/leaf/src/app/fake_dns.rs`) -/
/-- `enum FakeDnsMode { Include, Exclude }`. -/
inductive FakeDnsMode where
  | Include
  | Exclude
deriving DecidableEq

/-- `enum IpAddr` (std): a v4 address as its `u32` big-endian integer, or a
v6 address (payload irrelevant to the embedded code, which only
distinguishes the constructor). -/
inductive IpAddr where
  | v4 : Nat → IpAddr
  | v6 : Nat → IpAddr
deriving DecidableEq

/-- `struct FakeDnsImpl`.  `u32` fields are `Nat`s kept below `2^32`. -/
structure FakeDnsImpl where
  ip_to_domain : List (Nat × String)
  domain_to_ip : List (String × Nat)
  cursor : Nat
  min_cursor : Nat
  max_cursor : Nat
  ttl : Nat
  filters : List String
  mode : FakeDnsMode

/-- `ip_to_u32(&Ipv4Addr::new(a,b,c,d))` = `u32::from_be_bytes(octets)`. -/
def ip_to_u32 (a b c d : Nat) : Nat :=
  ((a * 256 + b) * 256 + c) * 256 + d

/-- `FakeDnsImpl::new`: range 198.18.0.0 – 198.18.255.255, cursor at the
range minimum, TTL 1, empty maps and filters. -/
def FakeDnsImpl.new (mode : FakeDnsMode) : FakeDnsImpl :=
  { ip_to_domain := []
    domain_to_ip := []
    cursor := ip_to_u32 198 18 0 0
    min_cursor := ip_to_u32 198 18 0 0
    max_cursor := ip_to_u32 198 18 255 255
    ttl := 1
    filters := []
    mode := mode }

/-- `FakeDnsImpl::add_filter`. -/
def FakeDnsImpl.add_filter (s : FakeDnsImpl) (filter : String) : FakeDnsImpl :=
  { s with filters := s.filters ++ [filter] }

/-- `FakeDnsImpl::query_domain`: v6 addresses are rejected, v4 addresses are
looked up in `ip_to_domain`. -/
def FakeDnsImpl.query_domain (s : FakeDnsImpl) (ip : IpAddr) : Option String :=
  match ip with
  | .v4 n => mfind s.ip_to_domain n
  | .v6 _ => none

/-- `FakeDnsImpl::query_fake_ip`. -/
def FakeDnsImpl.query_fake_ip (s : FakeDnsImpl) (domain : String) : Option IpAddr :=
  (mfind s.domain_to_ip domain).map IpAddr.v4

/-- `FakeDnsImpl::is_fake_ip`: v4 integer inside `[min_cursor, max_cursor]`. -/
def FakeDnsImpl.is_fake_ip (s : FakeDnsImpl) (ip : IpAddr) : Bool :=
  match ip with
  | .v4 n => s.min_cursor ≤ n && n ≤ s.max_cursor
  | .v6 _ => false

/-- `needle` occurs at the head of `hay`. -/
def leadMatch : List Char → List Char → Bool
  | [], _ => true
  | _ :: _, [] => false
  | a :: as, b :: bs => a = b && leadMatch as bs

/-- `needle` occurs contiguously somewhere in `hay`. -/
def subIn (needle hay : List Char) : Bool :=
  match hay with
  | [] => needle.isEmpty
  | _ :: rest => leadMatch needle hay || subIn needle rest

/-- Substring containment, Rust's `haystack.contains(needle)`. -/
def containsStr (hay needle : String) : Bool :=
  subIn needle.toList hay.toList

/-- `FakeDnsImpl::accept`: `Exclude` rejects (and `Include` accepts) exactly
when some filter is a substring of the domain or is the wildcard `"*"`. -/
def FakeDnsImpl.accept (s : FakeDnsImpl) (domain : String) : Bool :=
  match s.mode with
  | .Exclude => !(s.filters.any fun d => containsStr domain d || d == "*")
  | .Include => s.filters.any fun d => containsStr domain d || d == "*"

/-- One round of `FakeDnsImpl::prepare_next_cursor`'s `for _ in 0..3` loop,
fuelled by the remaining attempt count.  `self.cursor += 1` is `u32`
addition (`% 2^32`); `octets()[3]` of the big-endian `u32` is `% 256`.
On failure the thrice-advanced cursor is kept, as the `&mut self` loop does. -/
def prepare_aux : Nat → FakeDnsImpl → Except String Unit × FakeDnsImpl
  | 0, s => (.error "unable to prepare next cursor", s)
  | Nat.succ k, s =>
    let c0 := (s.cursor + 1) % 4294967296
    let c := if s.max_cursor < c0 then s.min_cursor else c0
    let s' := { s with cursor := c }
    if c % 256 = 0 ∨ c % 256 = 255 then prepare_aux k s'
    else (.ok (), s')

/-- `FakeDnsImpl::prepare_next_cursor`. -/
def FakeDnsImpl.prepare_next_cursor (s : FakeDnsImpl) :
    Except String Unit × FakeDnsImpl :=
  prepare_aux 3 s

/-- `FakeDnsImpl::allocate_ip`: assign the address at `cursor` to `domain`
(evicting any previous holder's forward mapping), then advance the cursor.
The address handed out is the cursor value *before* advancing.  On a cursor
preparation failure the map updates persist, as they do through `&mut self`. -/
def FakeDnsImpl.allocate_ip (s : FakeDnsImpl) (domain : String) :
    Except String Nat × FakeDnsImpl :=
  let prev := mfind s.ip_to_domain s.cursor
  let itd := mset s.ip_to_domain s.cursor domain
  let dti :=
    match prev with
    | some prev_domain => mdel s.domain_to_ip prev_domain
    | none => s.domain_to_ip
  let dti := mset dti domain s.cursor
  let ip := s.cursor
  let s1 := { s with ip_to_domain := itd, domain_to_ip := dti }
  match s1.prepare_next_cursor with
  | (.ok _, s2) => (.ok ip, s2)
  | (.error e, s2) => (.error e, s2)

/-! ## DNS message model

`generate_fake_response` decodes its input with `trust_dns_proto`
(`Message::from_vec`) and re-encodes its output (`Message::to_vec`); the
codec is an external crate, so messages are modelled structurally and the
decode step is abstracted as an `Option DnsMessage` argument (`none` for a
parse failure), while the function returns the response message itself. -/
/-- The record types distinguished by the embedded code. -/
inductive RecordType where
  | A
  | AAAA
  | HTTPS
  | other : Nat → RecordType
deriving DecidableEq

/-- The query classes distinguished by the embedded code. -/
inductive DNSClass where
  | IN
  | other : Nat → DNSClass
deriving DecidableEq

/-- The opcodes distinguished by the embedded code. -/
inductive DnsOpCode where
  | query
  | other : Nat → DnsOpCode
deriving DecidableEq

inductive MsgType where
  | query
  | response
deriving DecidableEq

inductive RespCode where
  | noError
  | other : Nat → RespCode
deriving DecidableEq

/-- A decoded domain name: its `to_ascii()` rendering plus the FQDN flag. -/
structure DnsName where
  ascii : String
  fqdn : Bool
deriving DecidableEq

structure DnsQuery where
  name : DnsName
  qtype : RecordType
  qclass : DNSClass
deriving DecidableEq

/-- The fields of a decoded `trust_dns_proto` query message that
`generate_fake_response` reads. -/
structure DnsMessage where
  id : Nat
  opCode : DnsOpCode
  recursionDesired : Bool
  checkingDisabled : Bool
  queries : List DnsQuery
deriving DecidableEq

/-- An answer resource record as assembled by the code: name, type `A`,
TTL, class `IN`, and the carried v4 address. -/
structure DnsRecord where
  name : DnsName
  rrType : RecordType
  ttl : Nat
  dnsClass : DNSClass
  rdata : Nat
deriving DecidableEq

/-- The response message assembled by `generate_fake_response`. -/
structure DnsResponse where
  id : Nat
  messageType : MsgType
  opCode : DnsOpCode
  recursionDesired : Bool
  checkingDisabled : Bool
  responseCode : RespCode
  queries : List DnsQuery
  answers : List DnsRecord
deriving DecidableEq

/-- `fqdn[..fqdn.len()-1]`: strip the trailing root-label dot of a
fully-qualified ASCII name. -/
def stripRootDot (name : DnsName) : String :=
  if name.fqdn then String.mk name.ascii.toList.dropLast else name.ascii

/-- The response-building tail of `generate_fake_response` (everything after
the address is at hand).  `Message::new()` leaves `recursion_desired` and
`checking_disabled` false; they are copied from the request only for the
standard `Query` opcode. -/
def mkFakeResponse (req : DnsMessage) (query : DnsQuery) (ip : Nat)
    (ttl : Nat) : DnsResponse :=
  { id := req.id
    messageType := .response
    opCode := req.opCode
    recursionDesired := req.opCode = .query && req.recursionDesired
    checkingDisabled := req.opCode = .query && req.checkingDisabled
    responseCode := .noError
    queries := [query]
    answers :=
      if query.qtype = .A then
        [{ name := query.name, rrType := .A, ttl := ttl,
           dnsClass := .IN, rdata := ip }]
      else [] }

/-- `FakeDnsImpl::generate_fake_response`.  The `Option` argument is the
result of the external `Message::from_vec` decode.  The source's
`unexpected Ipv6 fake IP` arm is unreachable (`domain_to_ip` stores `u32`)
and has no counterpart here; the state is returned alongside the result
because a failing allocation still mutates `&mut self`. -/
def FakeDnsImpl.generate_fake_response (s : FakeDnsImpl)
    (req? : Option DnsMessage) : Except String DnsResponse × FakeDnsImpl :=
  match req? with
  | none => (.error "DNS request parse failure", s)
  | some req =>
    match req.queries with
    | [] => (.error "no queries in this DNS request", s)
    | query :: _ =>
      if query.qclass ≠ DNSClass.IN then
        (.error "unsupported query class", s)
      else if query.qtype ≠ .A ∧ query.qtype ≠ .AAAA ∧ query.qtype ≠ .HTTPS then
        (.error "unsupported query record type", s)
      else if ¬ s.accept (stripRootDot query.name) then
        (.error "domain not accepted", s)
      else
        match mfind s.domain_to_ip (stripRootDot query.name) with
        | some ip => (.ok (mkFakeResponse req query ip s.ttl), s)
        | none =>
          match s.allocate_ip (stripRootDot query.name) with
          | (.ok ip, s') => (.ok (mkFakeResponse req query ip s'.ttl), s')
          | (.error e, s') => (.error e, s')

/-- The states reachable through the public `FakeDns` operations
(`new`, `add_filter`, `generate_fake_response`; the queries are read-only). -/
inductive FakeReachable : FakeDnsImpl → Prop where
  | new (mode : FakeDnsMode) : FakeReachable (FakeDnsImpl.new mode)
  | addFilter {s : FakeDnsImpl} (f : String) :
      FakeReachable s → FakeReachable (s.add_filter f)
  | generate {s : FakeDnsImpl} (req? : Option DnsMessage) :
      FakeReachable s → FakeReachable (s.generate_fake_response req?).2

/-- The two Fake-DNS maps are exact inverses of one another. -/
def FakeInv (s : FakeDnsImpl) : Prop :=
  ∀ (ip : Nat) (d : String),
    mfind s.ip_to_domain ip = some d ↔ mfind s.domain_to_ip d = some ip

/-- The post-allocation state written by `allocate_ip` before the cursor is
advanced: both map updates, as performed on `&mut self`. -/
def allocState (s : FakeDnsImpl) (domain : String) : FakeDnsImpl :=
  { s with
    ip_to_domain := mset s.ip_to_domain s.cursor domain
    domain_to_ip :=
      mset (match mfind s.ip_to_domain s.cursor with
            | some pd => mdel s.domain_to_ip pd
            | none => s.domain_to_ip) domain s.cursor }

/-! ## String splitting / joining helpers (Rust `str::split`, `join`) -/
/-- Rust's `s.split(sep)` on a character list: splits at every separator and
keeps empty pieces (`""` splits to `[""]`). -/
def splitOnChar (sep : Char) (cs : List Char) : List (List Char) :=
  cs.foldr
    (fun c acc =>
      match acc with
      | [] => [[c]]
      | a :: as => if c = sep then [] :: a :: as else (c :: a) :: as)
    [[]]

/-- `Vec::join(".")` on character lists. -/
def joinDotsL : List (List Char) → List Char
  | [] => []
  | [x] => x
  | x :: y :: rest => x ++ '.' :: joinDotsL (y :: rest)

/-! ## Connection descriptors (`Session`, `SocksAddr`)

Modelled from the spec: `Session` and `SocksAddr` live in
`src/leaf/src/session.rs`, which is not among the provided sources.  The
spec describes a descriptor as network type (TCP/UDP), destination
(domain+port or IP+port, possibly malformed with neither), and inbound tag;
the destination therefore carries optional domain and IP parts, and
`is_domain()` holds exactly when the domain part is present. -/
inductive Network where
  | Tcp
  | Udp
deriving DecidableEq

/-- Modelled from the spec: a destination address (`SocksAddr`), with
optional domain and IP parts and a port. -/
structure Destination where
  domain? : Option String
  ip? : Option IpAddr
  port : Nat
deriving DecidableEq

/-- Modelled from the spec: a connection descriptor. -/
structure Session where
  network : Network
  destination : Destination
  inbound_tag : String

/-- Decimal digits of `n`, fuelled (`n+1` suffices). -/
def decAux : Nat → Nat → List Char → List Char
  | 0, _, acc => acc
  | f + 1, n, acc =>
    let d := Char.ofNat (48 + n % 10)
    if n < 10 then d :: acc else decAux f (n / 10) (d :: acc)

/-- Decimal rendering of a natural number. -/
def natDec (n : Nat) : String :=
  String.mk (decAux (n + 1) n [])

/-- Modelled from the spec: `ip.to_string()`, the IP's string form
(dotted-quad `Display` for v4; a placeholder rendering for v6, whose exact
form no claim depends on). -/
def ipString : IpAddr → String
  | .v4 n =>
      natDec (n / 16777216 % 256) ++ "." ++ natDec (n / 65536 % 256) ++ "." ++
        natDec (n / 256 % 256) ++ "." ++ natDec (n % 256)
  | .v6 n => "v6:" ++ natDec n

/-! ## Router (`src/leaf/src/app/router.rs`) -/
/-- A loaded rule: target tag plus its composed condition.  The condition
(`Box<dyn Condition>`) is an opaque predicate over the session. -/
structure RRule where
  target : String
  condition : Session → Bool

structure Router where
  rules : List RRule
  domain_resolve : Bool
  route_cache : List (String × String)

/-- `Router::reload`: replaces the rule list and `domain_resolve` from the
new configuration.  The route cache is left untouched (the source never
clears it). -/
def Router.reload (r : Router) (newRules : List RRule)
    (newDomainResolve : Bool) : Router :=
  { rules := newRules, domain_resolve := newDomainResolve
    route_cache := r.route_cache }

/-- The cache key computed at the top of `pick_route`:
`domain.split('.').rev().take(2)` reversed back and joined with `"."` —
i.e. the last two labels.  `none` encodes the destination with neither
domain nor IP (the "Direct" shortcut). -/
def domainCacheKey (d : String) : String :=
  String.mk (joinDotsL (((splitOnChar '.' d.toList).reverse.take 2).reverse))

def cacheKeyOf (dest : Destination) : Option String :=
  match dest.domain? with
  | some d => some (domainCacheKey d)
  | none => dest.ip?.map ipString

/-- The fall-through tail of `pick_route`: no rule matched, return the
default tag `"trojan_out"` and cache it. -/
def pickDefault (r : Router) (cache_key : String) : Except String (String × Router) :=
  .ok ("trojan_out",
    { r with route_cache := mset r.route_cache cache_key "trojan_out" })

/-- `Router::pick_route`.  The external DNS resolver
(`dns_client.lookup`) is abstracted as the `lookup` argument; the returned
`Router` carries the possibly-extended route cache (the only state
`pick_route` mutates).  The debug-only re-apply for `google.com` domains has
no observable effect and no counterpart here. -/
def Router.pick_route (r : Router)
    (lookup : String → Except String (List IpAddr)) (sess : Session) :
    Except String (String × Router) :=
  match cacheKeyOf sess.destination with
  | none => .ok ("Direct", r)
  | some cache_key =>
    match mfind r.route_cache cache_key with
    | some target => .ok (target, r)
    | none =>
      match r.rules.find? (fun rule => rule.condition sess) with
      | some rule =>
        .ok (rule.target,
          { r with route_cache := mset r.route_cache cache_key rule.target })
      | none =>
        match sess.destination.domain?, r.domain_resolve with
        | some d, true =>
          match lookup d with
          | .error e => .error ("lookup " ++ d ++ " failed: " ++ e)
          | .ok [] => pickDefault r cache_key
          | .ok (ip0 :: _) =>
            match r.rules.find? (fun rule => rule.condition
              { sess with
                destination :=
                  { domain? := none, ip? := some ip0
                    port := sess.destination.port } }) with
            | some rule =>
              .ok (rule.target,
                { r with
                  route_cache := mset r.route_cache cache_key rule.target })
            | none => pickDefault r cache_key
        | _, _ => pickDefault r cache_key

/-! ## Suffix trie (`SuffixTrie` in `src/leaf/src/app/router.rs`)

One node per character; label boundaries are explicit `'.'` edges; an
end-marked node stores the full suffix it terminates. -/
inductive SuffixTrie where
  | node : List (Char × SuffixTrie) → Bool → String → SuffixTrie

def SuffixTrie.children : SuffixTrie → List (Char × SuffixTrie)
  | .node ch _ _ => ch

def SuffixTrie.is_end : SuffixTrie → Bool
  | .node _ e _ => e

def SuffixTrie.suffix : SuffixTrie → String
  | .node _ _ sfx => sfx

/-- `SuffixTrie::new`. -/
def SuffixTrie.empty : SuffixTrie := .node [] false ""

/-- Walk/create the char path and mark its final node with the suffix. -/
def insertPath : SuffixTrie → List Char → String → SuffixTrie
  | .node ch _ _, [], s => .node ch true s
  | .node ch e sfx, c :: rest, s =>
    .node (mset ch c (insertPath ((mfind ch c).getD SuffixTrie.empty) rest s))
      e sfx

/-- The char path taken by `insert`/`matches`: for each part, in reverse
(least-specific first), the part's characters then a `'.'` edge. -/
def triePath (parts : List (List Char)) : List Char :=
  (parts.reverse.map (fun p => p ++ ['.'])).join

/-- `current_suffix` as accumulated by `SuffixTrie::insert` over the
reversed parts. -/
def suffixAcc (parts : List (List Char)) : List Char :=
  parts.reverse.foldl (fun acc p => if acc.isEmpty then p else p ++ '.' :: acc)
    []

/-- `SuffixTrie::insert`. -/
def SuffixTrie.insert (t : SuffixTrie) (domain : String) : SuffixTrie :=
  insertPath t (triePath (splitOnChar '.' domain.toList))
    (String.mk (suffixAcc (splitOnChar '.' domain.toList)))

/-- The inner `for c in part.chars()` walk of `SuffixTrie::matches`. -/
def matchChars : SuffixTrie → List Char → Option SuffixTrie
  | t, [] => some t
  | t, c :: rest =>
    match mfind t.children c with
    | some child => matchChars child rest
    | none => none

/-- The outer `for part in parts.iter().rev()` walk of
`SuffixTrie::matches`, carrying the last end-marked suffix seen. -/
def matchParts : SuffixTrie → List (List Char) → Option String → Option String
  | _, [], acc => acc
  | t, p :: rest, acc =>
    match matchChars t p with
    | none => acc
    | some t1 =>
      match mfind t1.children '.' with
      | none => acc
      | some t2 =>
        matchParts t2 rest (if t2.is_end then some t2.suffix else acc)

/-- `SuffixTrie::matches`. -/
def SuffixTrie.matches (t : SuffixTrie) (domain : String) : Option String :=
  matchParts t (splitOnChar '.' domain.toList).reverse none

/-! ## Port matchers (`src/leaf/src/app/router.rs`) -/
/-- Digit-string parsing as Rust's `str::parse::<u16>` (after an optional
leading `'+'`): nonempty, all ASCII digits, value at most `u16::MAX`. -/
def parseDigits (cs : List Char) : Option Nat :=
  if cs.isEmpty then none
  else if cs.all (fun c => c.isDigit) then
    if cs.foldl (fun a c => a * 10 + (c.toNat - 48)) 0 ≤ 65535 then
      some (cs.foldl (fun a c => a * 10 + (c.toNat - 48)) 0)
    else none
  else none

/-- Rust `s.parse::<u16>()`. -/
def parseU16 (s : String) : Option Nat :=
  match s.toList with
  | '+' :: rest => parseDigits rest
  | cs => parseDigits cs

/-- `PortRangeMatcher::new`: exactly two `'-'`-separated tokens, both
`u16`, `start <= end`. -/
def PortRangeMatcher.new (port_range : String) : Except String (Nat × Nat) :=
  match (splitOnChar '-' port_range.toList).map String.mk with
  | [p0, p1] =>
    match parseU16 p0 with
    | none => .error "invalid port range"
    | some a =>
      match parseU16 p1 with
      | none => .error "invalid port range"
      | some b => if a > b then .error "invalid port range" else .ok (a, b)
  | _ => .error "invalid port range"

/-- `PortRangeMatcher::apply`: destination port inside the inclusive range. -/
def PortRangeMatcher.apply (m : Nat × Nat) (sess : Session) : Bool :=
  m.1 ≤ sess.destination.port && sess.destination.port ≤ m.2

/-- `PortMatcher::new`: each well-formed range contributes a matcher, each
malformed one is dropped with a warning. -/
def PortMatcher.new (port_ranges : List String) : List (Nat × Nat) :=
  port_ranges.filterMap (fun pr =>
    match PortRangeMatcher.new pr with
    | .ok m => some m
    | .error _ => none)

/-- `PortMatcher::apply`: the `ConditionOr` over the surviving ranges. -/
def PortMatcher.apply (ms : List (Nat × Nat)) (sess : Session) : Bool :=
  ms.any (fun m => PortRangeMatcher.apply m sess)

/-- An `A example.com` query (standard opcode, recursion desired). -/
def qC1 : DnsQuery := ⟨⟨"example.com", false⟩, .A, .IN⟩

def reqC1 : DnsMessage := ⟨4660, .query, true, false, [qC1]⟩

/-- A state in which 198.18.0.0 is already assigned to `old.com`. -/
def stateC3 : FakeDnsImpl :=
  { ip_to_domain := [(ip_to_u32 198 18 0 0, "old.com")]
    domain_to_ip := [("old.com", ip_to_u32 198 18 0 0)]
    cursor := ip_to_u32 198 18 0 0
    min_cursor := ip_to_u32 198 18 0 0
    max_cursor := ip_to_u32 198 18 255 255
    ttl := 1
    filters := []
    mode := .Exclude }

/-- The failure condition of `generate_fake_response` as the spec words
it: unparseable input, zero questions, a non-Internet query class, a
record type outside {A, AAAA, HTTPS}, or a queried name (root dot
stripped) rejected by the filter policy. -/
def specGenerateFails (s : FakeDnsImpl) : Option DnsMessage → Prop
  | none => True
  | some req =>
    match req.queries with
    | [] => True
    | q :: _ =>
      q.qclass ≠ DNSClass.IN ∨
      (q.qtype ≠ .A ∧ q.qtype ≠ .AAAA ∧ q.qtype ≠ .HTTPS) ∨
      s.accept (stripRootDot q.name) = false

/-! ## Theorems -/

theorem mfind_mdel {κ ν : Type} [DecidableEq κ]
    (m : List (κ × ν)) (k k' : κ) :
    mfind (mdel m k) k' = if k' = k then none else mfind m k' := by
  induction m with
  | nil => simp [mdel, mfind]
  | cons p rest ih =>
    cases p with
    | mk a b =>
      by_cases h : a = k
      · rw [show mdel ((a, b) :: rest) k = mdel rest k by simp [mdel, h], ih]
        by_cases h2 : k' = k
        · simp [h2]
        · simp [h2, mfind, show ¬a = k' from h ▸ fun he => h2 he.symm]
      · rw [show mdel ((a, b) :: rest) k = (a, b) :: mdel rest k by
          simp [mdel, h]]
        by_cases h2 : a = k'
        · have : ¬k' = k := fun he => h (h2.trans he)
          simp [mfind, h2, this]
        · simp [mfind, h2, ih]

theorem mfind_mset {κ ν : Type} [DecidableEq κ]
    (m : List (κ × ν)) (k k' : κ) (v : ν) :
    mfind (mset m k v) k' = if k' = k then some v else mfind m k' := by
  by_cases h : k' = k
  · simp [mset, mfind, h]
  · simp only [mset, mfind]
    rw [if_neg (fun he => h he.symm), if_neg h, mfind_mdel, if_neg h]

theorem allocate_ip_eq (s : FakeDnsImpl) (d : String) :
    s.allocate_ip d =
      (match prepare_aux 3 (allocState s d) with
       | (.ok _, s2) => (.ok s.cursor, s2)
       | (.error e, s2) => (.error e, s2)) := rfl

theorem prepare_aux_maps (k : Nat) (s : FakeDnsImpl) :
    ((prepare_aux k s).2).ip_to_domain = s.ip_to_domain ∧
    ((prepare_aux k s).2).domain_to_ip = s.domain_to_ip := by
  induction k generalizing s with
  | zero => exact ⟨rfl, rfl⟩
  | succ k ih =>
    simp only [prepare_aux]
    split <;> split
    · exact ih _
    · exact ⟨rfl, rfl⟩
    · exact ih _
    · exact ⟨rfl, rfl⟩

theorem allocate_maps (s : FakeDnsImpl) (d : String) :
    ((s.allocate_ip d).2).ip_to_domain = (allocState s d).ip_to_domain ∧
    ((s.allocate_ip d).2).domain_to_ip = (allocState s d).domain_to_ip := by
  rw [allocate_ip_eq]
  have h := prepare_aux_maps 3 (allocState s d)
  rcases hres : prepare_aux 3 (allocState s d) with ⟨r, s2⟩
  rw [hres] at h
  cases r with
  | ok _ => exact h
  | error _ => exact h

theorem allocate_result (s : FakeDnsImpl) (d : String) (ip : Nat)
    (h : (s.allocate_ip d).1 = .ok ip) : ip = s.cursor := by
  rw [allocate_ip_eq] at h
  rcases hres : prepare_aux 3 (allocState s d) with ⟨r, s2⟩
  rw [hres] at h
  cases r with
  | ok _ => cases h; rfl
  | error _ => cases h

theorem allocate_itd (s : FakeDnsImpl) (d : String) :
    (s.allocate_ip d).2.ip_to_domain = mset s.ip_to_domain s.cursor d := by
  have h := (allocate_maps s d).1
  simpa [allocState] using h

theorem allocate_dti_none (s : FakeDnsImpl) (d : String)
    (hprev : mfind s.ip_to_domain s.cursor = none) :
    (s.allocate_ip d).2.domain_to_ip = mset s.domain_to_ip d s.cursor := by
  have h := (allocate_maps s d).2
  simpa [allocState, hprev] using h

theorem allocate_dti_some (s : FakeDnsImpl) (d pd : String)
    (hprev : mfind s.ip_to_domain s.cursor = some pd) :
    (s.allocate_ip d).2.domain_to_ip =
      mset (mdel s.domain_to_ip pd) d s.cursor := by
  have h := (allocate_maps s d).2
  simpa [allocState, hprev] using h

theorem allocate_inv {s : FakeDnsImpl} {d : String}
    (hinv : FakeInv s) (hnone : mfind s.domain_to_ip d = none) :
    FakeInv (s.allocate_ip d).2 := by
  intro ip dd
  rw [allocate_itd, mfind_mset]
  rcases hprev : mfind s.ip_to_domain s.cursor with _ | pd
  · rw [allocate_dti_none s d hprev, mfind_mset]
    by_cases hip : ip = s.cursor
    · by_cases hdd : dd = d
      · rw [if_pos hip, if_pos hdd, hip, hdd]; simp
      · rw [if_pos hip, if_neg hdd]
        constructor
        · intro he; exact absurd (Option.some.inj he) fun h2 => hdd h2.symm
        · intro he
          have h3 := (hinv ip dd).mpr he
          rw [hip, hprev] at h3
          cases h3
    · by_cases hdd : dd = d
      · rw [if_neg hip, if_pos hdd]
        constructor
        · intro he
          have h3 := (hinv ip dd).mp he
          rw [hdd, hnone] at h3
          cases h3
        · intro he
          exact absurd (Option.some.inj he).symm hip
      · rw [if_neg hip, if_neg hdd]
        exact hinv ip dd
  · have hpd : mfind s.domain_to_ip pd = some s.cursor := (hinv s.cursor pd).mp hprev
    have hpdd : ¬ pd = d := by
      intro he
      rw [he, hnone] at hpd
      cases hpd
    rw [allocate_dti_some s d pd hprev, mfind_mset]
    by_cases hip : ip = s.cursor
    · by_cases hdd : dd = d
      · rw [if_pos hip, if_pos hdd, hip, hdd]; simp
      · rw [if_pos hip, if_neg hdd, mfind_mdel]
        constructor
        · intro he; exact absurd (Option.some.inj he) fun h2 => hdd h2.symm
        · intro he
          by_cases hdp : dd = pd
          · rw [if_pos hdp] at he; cases he
          · rw [if_neg hdp] at he
            have h3 := (hinv ip dd).mpr he
            rw [hip, hprev] at h3
            exact absurd (Option.some.inj h3).symm hdp
    · by_cases hdd : dd = d
      · rw [if_neg hip, if_pos hdd]
        constructor
        · intro he
          have h3 := (hinv ip dd).mp he
          rw [hdd, hnone] at h3
          cases h3
        · intro he
          exact absurd (Option.some.inj he).symm hip
      · rw [if_neg hip, if_neg hdd, mfind_mdel]
        by_cases hdp : dd = pd
        · rw [if_pos hdp]
          constructor
          · intro he
            have h3 := (hinv ip dd).mp he
            rw [hdp, hpd] at h3
            exact absurd (Option.some.inj h3).symm hip
          · intro he; cases he
        · rw [if_neg hdp]
          exact hinv ip dd

theorem generate_inv {s : FakeDnsImpl} (req? : Option DnsMessage)
    (hinv : FakeInv s) : FakeInv (s.generate_fake_response req?).2 := by
  unfold FakeDnsImpl.generate_fake_response
  split
  · exact hinv
  · split
    · exact hinv
    · split
      · exact hinv
      · split
        · exact hinv
        · split
          · exact hinv
          · split
            · exact hinv
            · next hfind =>
              split
              · next ip s' halloc =>
                have h := allocate_inv hinv hfind
                rw [halloc] at h
                exact h
              · next e s' halloc =>
                have h := allocate_inv hinv hfind
                rw [halloc] at h
                exact h

theorem reachable_inv {s : FakeDnsImpl} (h : FakeReachable s) : FakeInv s := by
  induction h with
  | new mode =>
    intro ip d
    simp [FakeDnsImpl.new, mfind]
  | addFilter f _ ih =>
    intro ip d
    exact ih ip d
  | generate req? _ ih => exact generate_inv req? ih

theorem allocate_query_domain (s : FakeDnsImpl) (d : String) :
    (s.allocate_ip d).2.query_domain (.v4 s.cursor) = some d := by
  show mfind (s.allocate_ip d).2.ip_to_domain s.cursor = some d
  rw [allocate_itd, mfind_mset, if_pos rfl]

theorem allocate_query_fake_ip (s : FakeDnsImpl) (d : String) :
    (s.allocate_ip d).2.query_fake_ip d = some (.v4 s.cursor) := by
  unfold FakeDnsImpl.query_fake_ip
  rcases hprev : mfind s.ip_to_domain s.cursor with _ | pd
  · rw [allocate_dti_none s d hprev, mfind_mset, if_pos rfl]
    rfl
  · rw [allocate_dti_some s d pd hprev, mfind_mset, if_pos rfl]
    rfl

theorem allocate_evict (s : FakeDnsImpl) (d pd : String)
    (hprev : mfind s.ip_to_domain s.cursor = some pd) (hne : pd ≠ d) :
    (s.allocate_ip d).2.query_fake_ip pd = none := by
  unfold FakeDnsImpl.query_fake_ip
  rw [allocate_dti_some s d pd hprev, mfind_mset, if_neg hne, mfind_mdel,
    if_pos rfl]
  rfl

/-! ## Cursor advancement always succeeds on the configured range -/
theorem prepare_next_cursor_ok (s : FakeDnsImpl)
    (hmin : s.min_cursor = ip_to_u32 198 18 0 0)
    (hmax : s.max_cursor = ip_to_u32 198 18 255 255)
    (hlo : s.min_cursor ≤ s.cursor) (hhi : s.cursor ≤ s.max_cursor) :
    s.prepare_next_cursor.1 = .ok () := by
  have hmin' : s.min_cursor = 3323068416 := by rw [hmin]; rfl
  have hmax' : s.max_cursor = 3323133951 := by rw [hmax]; rfl
  rw [hmin'] at hlo
  rw [hmax'] at hhi
  unfold FakeDnsImpl.prepare_next_cursor
  simp only [prepare_aux, hmin', hmax']
  split_ifs <;> first | rfl | omega | (exfalso; norm_num at *)

theorem allocate_ip_ok (s : FakeDnsImpl) (d : String)
    (hmin : s.min_cursor = ip_to_u32 198 18 0 0)
    (hmax : s.max_cursor = ip_to_u32 198 18 255 255)
    (hlo : s.min_cursor ≤ s.cursor) (hhi : s.cursor ≤ s.max_cursor) :
    (s.allocate_ip d).1 = .ok s.cursor := by
  rw [allocate_ip_eq]
  have hok : (prepare_aux 3 (allocState s d)).1 = .ok () :=
    prepare_next_cursor_ok (allocState s d) hmin hmax hlo hhi
  rcases hres : prepare_aux 3 (allocState s d) with ⟨r, s2⟩
  rw [hres] at hok
  cases r with
  | ok u => rfl
  | error e => cases hok

theorem splitOnChar_cons (sep c : Char) (cs : List Char) :
    splitOnChar sep (c :: cs) =
      match splitOnChar sep cs with
      | [] => [[c]]
      | a :: as => if c = sep then [] :: a :: as else (c :: a) :: as := rfl

theorem splitOnChar_ne_nil (sep : Char) (cs : List Char) :
    splitOnChar sep cs ≠ [] := by
  cases cs with
  | nil => simp [splitOnChar]
  | cons c rest =>
    rw [splitOnChar_cons]
    rcases splitOnChar sep rest with _ | ⟨a, as⟩
    · simp
    · by_cases hc : c = sep <;> simp [hc]

theorem joinDotsL_splitOnChar (cs : List Char) :
    joinDotsL (splitOnChar '.' cs) = cs := by
  induction cs with
  | nil => rfl
  | cons c rest ih =>
    rw [splitOnChar_cons]
    rcases hs : splitOnChar '.' rest with _ | ⟨a, as⟩
    · exact absurd hs (splitOnChar_ne_nil '.' rest)
    · rw [hs] at ih
      show joinDotsL (if c = '.' then [] :: a :: as else (c :: a) :: as) =
        c :: rest
      by_cases hc : c = '.'
      · rw [if_pos hc, hc]
        rw [show joinDotsL ([] :: a :: as) = [] ++ '.' :: joinDotsL (a :: as)
          from rfl, ih]
        rfl
      · rw [if_neg hc]
        cases as with
        | nil =>
          have ha : a = rest := ih
          rw [show joinDotsL [c :: a] = c :: a from rfl, ha]
        | cons b bs =>
          rw [show joinDotsL ((c :: a) :: b :: bs) =
            (c :: a) ++ '.' :: joinDotsL (b :: bs) from rfl]
          rw [show joinDotsL (a :: b :: bs) = a ++ '.' :: joinDotsL (b :: bs)
            from rfl] at ih
          rw [← ih]
          rfl

theorem mfind_mset_self {κ ν : Type} [DecidableEq κ]
    (m : List (κ × ν)) (k : κ) (v : ν) : mfind (mset m k v) k = some v := by
  rw [mfind_mset, if_pos rfl]

theorem mfind_mset_keep {cache : List (String × String)} {ck k tgt v : String}
    (hmiss : mfind cache ck = none) (hkv : mfind cache k = some v) :
    mfind (mset cache ck tgt) k = some v := by
  rw [mfind_mset]
  by_cases hkk : k = ck
  · rw [hkk] at hkv
    rw [hkv] at hmiss
    cases hmiss
  · rw [if_neg hkk]
    exact hkv

theorem pick_route_cache_hit (r : Router)
    (lookup : String → Except String (List IpAddr)) (sess : Session)
    (k t : String) (hk : cacheKeyOf sess.destination = some k)
    (ht : mfind r.route_cache k = some t) :
    r.pick_route lookup sess = .ok (t, r) := by
  unfold Router.pick_route
  simp [hk, ht]

theorem pick_route_monotone {r : Router}
    {lookup : String → Except String (List IpAddr)} {sess : Session}
    {t : String} {r' : Router}
    (hpick : r.pick_route lookup sess = .ok (t, r')) :
    ∀ k v, mfind r.route_cache k = some v → mfind r'.route_cache k = some v := by
  intro k v hkv
  unfold Router.pick_route at hpick
  split at hpick
  · cases hpick
    exact hkv
  · split at hpick
    · cases hpick
      exact hkv
    · next hmiss =>
      split at hpick
      · cases hpick
        exact mfind_mset_keep hmiss hkv
      · split at hpick
        · split at hpick
          · exact Except.noConfusion hpick
          · simp only [pickDefault] at hpick
            cases hpick
            exact mfind_mset_keep hmiss hkv
          · split at hpick
            · cases hpick
              exact mfind_mset_keep hmiss hkv
            · simp only [pickDefault] at hpick
              cases hpick
              exact mfind_mset_keep hmiss hkv
        · simp only [pickDefault] at hpick
          cases hpick
          exact mfind_mset_keep hmiss hkv

theorem pick_route_caches {r : Router}
    {lookup : String → Except String (List IpAddr)} {sess : Session}
    {t : String} {r' : Router} {k : String}
    (hpick : r.pick_route lookup sess = .ok (t, r'))
    (hk : cacheKeyOf sess.destination = some k) :
    mfind r'.route_cache k = some t := by
  unfold Router.pick_route at hpick
  split at hpick
  · next hck =>
    rw [hk] at hck
    cases hck
  · next ck hck =>
    rw [hk] at hck
    cases hck
    split at hpick
    · next hhit =>
      cases hpick
      exact hhit
    · split at hpick
      · cases hpick
        exact mfind_mset_self _ _ _
      · split at hpick
        · split at hpick
          · exact Except.noConfusion hpick
          · simp only [pickDefault] at hpick
            cases hpick
            exact mfind_mset_self _ _ _
          · split at hpick
            · cases hpick
              exact mfind_mset_self _ _ _
            · simp only [pickDefault] at hpick
              cases hpick
              exact mfind_mset_self _ _ _
        · simp only [pickDefault] at hpick
          cases hpick
          exact mfind_mset_self _ _ _

theorem pick_route_error {r : Router}
    {lookup : String → Except String (List IpAddr)} {sess : Session}
    {e : String} (hpick : r.pick_route lookup sess = .error e) :
    ∃ d msg, sess.destination.domain? = some d ∧ r.domain_resolve = true ∧
      lookup d = .error msg := by
  unfold Router.pick_route at hpick
  split at hpick
  · exact Except.noConfusion hpick
  · split at hpick
    · exact Except.noConfusion hpick
    · split at hpick
      · exact Except.noConfusion hpick
      · split at hpick
        · next d hd hres =>
          split at hpick
          · next msg hlk => exact ⟨d, msg, hd, hres, hlk⟩
          · simp only [pickDefault] at hpick
            exact Except.noConfusion hpick
          · split at hpick
            · exact Except.noConfusion hpick
            · simp only [pickDefault] at hpick
              exact Except.noConfusion hpick
        · simp only [pickDefault] at hpick
          exact Except.noConfusion hpick

theorem pick_route_direct (r : Router)
    (lookup : String → Except String (List IpAddr)) (sess : Session)
    (hd : sess.destination.domain? = none) (hip : sess.destination.ip? = none) :
    r.pick_route lookup sess = .ok ("Direct", r) := by
  have hkey : cacheKeyOf sess.destination = none := by
    simp [cacheKeyOf, hd, hip]
  unfold Router.pick_route
  simp [hkey]

theorem pick_route_default (r : Router)
    (lookup : String → Except String (List IpAddr)) (sess : Session)
    (k : String) (hk : cacheKeyOf sess.destination = some k)
    (hmiss : mfind r.route_cache k = none)
    (hnomatch : r.rules.find? (fun rule => rule.condition sess) = none)
    (hfall : sess.destination.domain? = none ∨ r.domain_resolve = false ∨
      ∃ d, sess.destination.domain? = some d ∧ r.domain_resolve = true ∧
        (lookup d = .ok [] ∨
         ∃ ip0 rest, lookup d = .ok (ip0 :: rest) ∧
           r.rules.find? (fun rule => rule.condition
             { sess with destination :=
                 { domain? := none, ip? := some ip0
                   port := sess.destination.port } }) = none)) :
    r.pick_route lookup sess =
      .ok ("trojan_out",
        { r with route_cache := mset r.route_cache k "trojan_out" }) := by
  unfold Router.pick_route
  simp only [hk, hmiss, hnomatch]
  rcases hfall with hd | hr | ⟨d, hd, hr, hlk | ⟨ip0, rest, hlk, hnom2⟩⟩
  · simp [hd, pickDefault]
  · rcases hdom : sess.destination.domain? with _ | d
    · simp [hdom, pickDefault]
    · simp [hdom, hr, pickDefault]
  · simp [hd, hr, hlk, pickDefault]
  · simp [hd, hr, hlk, hnom2, pickDefault]

/-- C8: after inserting `baidu.com`, the domains `www.baidu.com` and
`map.baidu.com` match (yielding the suffix `baidu.com`) and `google.com`
does not; after inserting `com.cn`, `example.com.cn` matches and
`example.cn` does not. -/
theorem claim_C8_suffix_trie :
    (SuffixTrie.empty.insert "baidu.com").matches "www.baidu.com" =
      some "baidu.com" ∧
    (SuffixTrie.empty.insert "baidu.com").matches "map.baidu.com" =
      some "baidu.com" ∧
    (SuffixTrie.empty.insert "baidu.com").matches "google.com" = none ∧
    (SuffixTrie.empty.insert "com.cn").matches "example.com.cn" =
      some "com.cn" ∧
    (SuffixTrie.empty.insert "com.cn").matches "example.cn" = none :=
  ⟨rfl, rfl, rfl, rfl, rfl⟩

theorem portRange_new_ok (s : String) (a b : Nat) :
    PortRangeMatcher.new s = .ok (a, b) ↔
      ∃ t1 t2, (splitOnChar '-' s.toList).map String.mk = [t1, t2] ∧
        parseU16 t1 = some a ∧ parseU16 t2 = some b ∧ a ≤ b := by
  unfold PortRangeMatcher.new
  rcases hsp : (splitOnChar '-' s.toList).map String.mk with _ | ⟨p0, rest⟩
  · simp
  · rcases rest with _ | ⟨p1, rest2⟩
    · simp
    · rcases rest2 with _ | ⟨p2, rest3⟩
      · rcases hp0 : parseU16 p0 with _ | a'
        · simp [hp0]
        · rcases hp1 : parseU16 p1 with _ | b'
          · simp [hp0, hp1]
          · simp only [hp0, hp1]
            by_cases hab : a' > b'
            · rw [if_pos hab]
              constructor
              · intro h
                exact Except.noConfusion h
              · rintro ⟨t1, t2, hl, h1, h2, h3⟩
                rcases List.cons.inj hl with ⟨h4, h5⟩
                rcases List.cons.inj h5 with ⟨h6, -⟩
                subst h4
                subst h6
                rw [hp0] at h1
                rw [hp1] at h2
                cases h1
                cases h2
                omega
            · rw [if_neg hab]
              constructor
              · intro h
                rcases Prod.mk.inj (Except.ok.inj h) with ⟨h1, h2⟩
                exact ⟨p0, p1, rfl, h1 ▸ hp0, h2 ▸ hp1, by omega⟩
              · rintro ⟨t1, t2, hl, h1, h2, h3⟩
                rcases List.cons.inj hl with ⟨h4, h5⟩
                rcases List.cons.inj h5 with ⟨h6, -⟩
                subst h4
                subst h6
                rw [hp0] at h1
                rw [hp1] at h2
                cases h1
                cases h2
                rfl
      · simp

theorem portRange_apply_iff (a b : Nat) (sess : Session) :
    PortRangeMatcher.apply (a, b) sess = true ↔
      a ≤ sess.destination.port ∧ sess.destination.port ≤ b := by
  simp [PortRangeMatcher.apply]

theorem portMatcher_or (ms : List (Nat × Nat)) (sess : Session) :
    PortMatcher.apply ms sess = true ↔
      ∃ m ∈ ms, PortRangeMatcher.apply m sess = true := by
  simp [PortMatcher.apply, List.any_eq_true]

theorem portMatcher_skips (pr : String) (rest : List String)
    (h : ∃ e, PortRangeMatcher.new pr = .error e) :
    PortMatcher.new (pr :: rest) = PortMatcher.new rest := by
  rcases h with ⟨e, he⟩
  simp [PortMatcher.new, he]

/-- C9: port-range construction succeeds exactly on two `'-'`-separated
tokens that both parse as `u16` with `start <= end`; a successful matcher
matches exactly the ports in the inclusive range; the six malformed
examples are rejected and contribute no matcher; a rule's surviving ranges
combine by logical OR. -/
theorem claim_C9_port_ranges :
    (∀ s a b, PortRangeMatcher.new s = .ok (a, b) ↔
      ∃ t1 t2, (splitOnChar '-' s.toList).map String.mk = [t1, t2] ∧
        parseU16 t1 = some a ∧ parseU16 t2 = some b ∧ a ≤ b) ∧
    (∀ a b sess, PortRangeMatcher.apply (a, b) sess = true ↔
      a ≤ sess.destination.port ∧ sess.destination.port ≤ b) ∧
    PortMatcher.new ["22-21", "22", "22-", "-22", "22-abc", "22-23-24"]
      = [] ∧
    (∀ pr rest, (∃ e, PortRangeMatcher.new pr = .error e) →
      PortMatcher.new (pr :: rest) = PortMatcher.new rest) ∧
    (∀ ms sess, PortMatcher.apply ms sess = true ↔
      ∃ m ∈ ms, PortRangeMatcher.apply m sess = true) ∧
    PortMatcher.apply (PortMatcher.new ["1024-5000", "6000-7000"])
      ⟨.Tcp, ⟨some "www.google.com", none, 2000⟩, "in"⟩ = true ∧
    PortMatcher.apply (PortMatcher.new ["1024-5000", "6000-7000"])
      ⟨.Tcp, ⟨some "www.google.com", none, 5001⟩, "in"⟩ = false ∧
    PortMatcher.apply (PortMatcher.new ["1024-5000", "6000-7000"])
      ⟨.Tcp, ⟨some "www.google.com", none, 6001⟩, "in"⟩ = true :=
  ⟨portRange_new_ok, portRange_apply_iff, rfl, portMatcher_skips,
    portMatcher_or, by decide, by decide, by decide⟩

/-- C9 witness: the skip behaviour instantiated at `"22-21"`. -/
theorem claim_C9_witness :
    PortRangeMatcher.new "1024-5000" = .ok (1024, 5000) ∧
    PortRangeMatcher.new "22-21" = .error "invalid port range" ∧
    PortMatcher.new ("22-21" :: ["1024-5000"]) =
      PortMatcher.new ["1024-5000"] :=
  ⟨rfl, rfl,
    claim_C9_port_ranges.2.2.2.1 "22-21" ["1024-5000"]
      ⟨"invalid port range", rfl⟩⟩

theorem accept_exclude_iff (s : FakeDnsImpl) (d : String)
    (hm : s.mode = .Exclude) :
    s.accept d = true ↔
      ∀ f ∈ s.filters, ¬ containsStr d f = true ∧ f ≠ "*" := by
  unfold FakeDnsImpl.accept
  rw [hm]
  simp only [Bool.not_eq_true', List.any_eq_false, Bool.or_eq_true,
    beq_iff_eq, not_or, Bool.not_eq_true]

theorem accept_include_iff (s : FakeDnsImpl) (d : String)
    (hm : s.mode = .Include) :
    s.accept d = true ↔
      ∃ f ∈ s.filters, containsStr d f = true ∨ f = "*" := by
  unfold FakeDnsImpl.accept
  rw [hm]
  simp [List.any_eq_true]

/-- C10: in `Exclude` mode a domain is accepted exactly when no filter
entry is a substring of it and none is the wildcard `"*"`; in `Include`
mode exactly when some filter entry is a substring of it or is `"*"`;
with filter `["ads."]`, `Exclude` rejects `ads.example.com` and accepts
`example.com`; with `["*"]` everything is rejected; `Include` inverts. -/
theorem claim_C10_accept_policy :
    (∀ (s : FakeDnsImpl) (d : String), s.mode = .Exclude →
      (s.accept d = true ↔
        ∀ f ∈ s.filters, ¬ containsStr d f = true ∧ f ≠ "*")) ∧
    (∀ (s : FakeDnsImpl) (d : String), s.mode = .Include →
      (s.accept d = true ↔
        ∃ f ∈ s.filters, containsStr d f = true ∨ f = "*")) ∧
    ((FakeDnsImpl.new .Exclude).add_filter "ads.").accept "ads.example.com"
      = false ∧
    ((FakeDnsImpl.new .Exclude).add_filter "ads.").accept "example.com"
      = true ∧
    ((FakeDnsImpl.new .Exclude).add_filter "*").accept "example.com"
      = false ∧
    ((FakeDnsImpl.new .Include).add_filter "ads.").accept "ads.example.com"
      = true ∧
    ((FakeDnsImpl.new .Include).add_filter "ads.").accept "example.com"
      = false ∧
    ((FakeDnsImpl.new .Include).add_filter "*").accept "example.com"
      = true :=
  ⟨accept_exclude_iff, accept_include_iff, by decide, by decide, by decide,
    by decide, by decide, by decide⟩

/-- C10 witness: the `Exclude` characterization instantiated with filter
`["ads."]` and domain `"example.com"`. -/
theorem claim_C10_witness :
    ((FakeDnsImpl.new .Exclude).add_filter "ads.").mode = .Exclude ∧
    (((FakeDnsImpl.new .Exclude).add_filter "ads.").accept "example.com"
        = true ↔
      ∀ f ∈ ((FakeDnsImpl.new .Exclude).add_filter "ads.").filters,
        ¬ containsStr "example.com" f = true ∧ f ≠ "*") :=
  ⟨rfl, claim_C10_accept_policy.1 _ "example.com" rfl⟩

/-- C1: evaluation at the failing input.  On a fresh allocator the first
allocation hands out `ip_to_u32 198 18 0 0` = 198.18.0.0 itself — the
reserved low-byte-0 network address and the range's `min_cursor`, not
`min_cursor + 1`: `new` starts `cursor` at `min_cursor` and `allocate_ip`
assigns the cursor *before* advancing it. -/
theorem claim_C1_first_allocation :
    ((FakeDnsImpl.new .Exclude).allocate_ip "example.com").1 =
      .ok (ip_to_u32 198 18 0 0) ∧
    ((FakeDnsImpl.new .Exclude).generate_fake_response (some reqC1)).1 =
      .ok (mkFakeResponse reqC1 qC1 (ip_to_u32 198 18 0 0) 1) ∧
    ip_to_u32 198 18 0 0 % 256 = 0 ∧
    (FakeDnsImpl.new .Exclude).min_cursor = ip_to_u32 198 18 0 0 :=
  ⟨rfl, rfl, rfl, rfl⟩

/-- C7: on the configured range 198.18.0.0–198.18.255.255, for every
cursor in `[min_cursor, max_cursor]` the cursor advance finds a usable
address within its 3 attempts, so `prepare_next_cursor` (and hence
`allocate_ip`) never fails. -/
theorem claim_C7_cursor_never_fails :
    (∀ s : FakeDnsImpl, s.min_cursor = ip_to_u32 198 18 0 0 →
      s.max_cursor = ip_to_u32 198 18 255 255 →
      s.min_cursor ≤ s.cursor → s.cursor ≤ s.max_cursor →
      s.prepare_next_cursor.1 = .ok ()) ∧
    (∀ (s : FakeDnsImpl) (d : String), s.min_cursor = ip_to_u32 198 18 0 0 →
      s.max_cursor = ip_to_u32 198 18 255 255 →
      s.min_cursor ≤ s.cursor → s.cursor ≤ s.max_cursor →
      (s.allocate_ip d).1 = .ok s.cursor) :=
  ⟨prepare_next_cursor_ok, allocate_ip_ok⟩

/-- C7 witness: the fresh allocator satisfies the range hypotheses and its
cursor advance succeeds. -/
theorem claim_C7_witness :
    ((FakeDnsImpl.new .Exclude).min_cursor = ip_to_u32 198 18 0 0 ∧
      (FakeDnsImpl.new .Exclude).max_cursor = ip_to_u32 198 18 255 255 ∧
      (FakeDnsImpl.new .Exclude).min_cursor ≤
        (FakeDnsImpl.new .Exclude).cursor ∧
      (FakeDnsImpl.new .Exclude).cursor ≤
        (FakeDnsImpl.new .Exclude).max_cursor) ∧
    (FakeDnsImpl.new .Exclude).prepare_next_cursor.1 = .ok () :=
  ⟨⟨rfl, rfl, by decide, by decide⟩,
    claim_C7_cursor_never_fails.1 _ rfl rfl (by decide) (by decide)⟩

/-- C3: on every state reachable through the public Fake-DNS operations
the two maps are exact inverses; right after an allocation the forward and
reverse lookups agree on the returned address; reusing an address for a
new domain removes the evicted domain's forward mapping. -/
theorem claim_C3_inverse_maps :
    (∀ s : FakeDnsImpl, FakeReachable s → FakeInv s) ∧
    (∀ (s : FakeDnsImpl) (d : String) (ip : Nat),
      (s.allocate_ip d).1 = .ok ip →
        (s.allocate_ip d).2.query_domain (.v4 ip) = some d ∧
        (s.allocate_ip d).2.query_fake_ip d = some (.v4 ip)) ∧
    (∀ (s : FakeDnsImpl) (d pd : String),
      mfind s.ip_to_domain s.cursor = some pd → pd ≠ d →
        (s.allocate_ip d).2.query_fake_ip pd = none) := by
  refine ⟨fun s h => reachable_inv h, ?_,
    fun s d pd h1 h2 => allocate_evict s d pd h1 h2⟩
  intro s d ip h
  have hc := allocate_result s d ip h
  subst hc
  exact ⟨allocate_query_domain s d, allocate_query_fake_ip s d⟩

/-- C3 witness: the invariant on the reachable fresh state, the
round-trip after allocating `example.com` there, and the eviction of
`old.com` when its address is reused for `new.com`. -/
theorem claim_C3_witness :
    FakeInv (FakeDnsImpl.new .Exclude) ∧
    ((FakeDnsImpl.new .Exclude).allocate_ip
        "example.com").2.query_domain (.v4 (ip_to_u32 198 18 0 0)) =
      some "example.com" ∧
    ((FakeDnsImpl.new .Exclude).allocate_ip
        "example.com").2.query_fake_ip "example.com" =
      some (.v4 (ip_to_u32 198 18 0 0)) ∧
    (stateC3.allocate_ip "new.com").2.query_fake_ip "old.com" = none :=
  ⟨claim_C3_inverse_maps.1 _ (FakeReachable.new _),
    (claim_C3_inverse_maps.2.1 (FakeDnsImpl.new .Exclude) "example.com"
      (ip_to_u32 198 18 0 0) (by rfl)).1,
    (claim_C3_inverse_maps.2.1 (FakeDnsImpl.new .Exclude) "example.com"
      (ip_to_u32 198 18 0 0) (by rfl)).2,
    claim_C3_inverse_maps.2.2 stateC3 "new.com" "old.com" rfl (by decide)⟩

/-- C2 counterexample: `reload` does **not** clear the route cache — a
cached entry survives a full reload (the source's `reload` only replaces
the rules and the `domain_resolve` flag). -/
theorem claim_C2_counterexample :
    mfind ((Router.mk [] false [("google.com", "tag1")]).reload []
      true).route_cache "google.com" = some "tag1" ∧
    ((Router.mk [] false [("google.com", "tag1")]).reload []
      true).route_cache ≠ [] :=
  ⟨rfl, by decide⟩

/-- C2 (amended): a cached key always returns its cached tag; routing never
removes or changes an existing cache entry; a successful `pick_route`
leaves its key cached with the returned tag; and `reload` preserves the
cache (rather than clearing it), so cached answers survive rule mutation. -/
theorem claim_C2_cache_monotone :
    (∀ (r : Router) (lookup : String → Except String (List IpAddr))
        (sess : Session) (k t : String),
      cacheKeyOf sess.destination = some k →
      mfind r.route_cache k = some t →
      r.pick_route lookup sess = .ok (t, r)) ∧
    (∀ (r : Router) (lookup : String → Except String (List IpAddr))
        (sess : Session) (t : String) (r' : Router),
      r.pick_route lookup sess = .ok (t, r') →
      ∀ k v, mfind r.route_cache k = some v →
        mfind r'.route_cache k = some v) ∧
    (∀ (r : Router) (lookup : String → Except String (List IpAddr))
        (sess : Session) (t : String) (r' : Router) (k : String),
      r.pick_route lookup sess = .ok (t, r') →
      cacheKeyOf sess.destination = some k →
      mfind r'.route_cache k = some t) ∧
    (∀ (r : Router) (nr : List RRule) (ndr : Bool),
      (r.reload nr ndr).route_cache = r.route_cache) ∧
    (∀ (r : Router)
        (lookup₁ lookup₂ : String → Except String (List IpAddr))
        (sess₁ sess₂ : Session) (k t : String) (r' : Router)
        (nr : List RRule) (ndr : Bool),
      r.pick_route lookup₁ sess₁ = .ok (t, r') →
      cacheKeyOf sess₁.destination = some k →
      cacheKeyOf sess₂.destination = some k →
      (r'.reload nr ndr).pick_route lookup₂ sess₂ =
        .ok (t, r'.reload nr ndr)) := by
  refine ⟨pick_route_cache_hit, fun r lookup sess t r' h => ?_,
    fun r lookup sess t r' k h hk => pick_route_caches h hk,
    fun r nr ndr => rfl, ?_⟩
  · exact pick_route_monotone h
  · intro r lookup₁ lookup₂ sess₁ sess₂ k t r' nr ndr hpick hk1 hk2
    have hcached : mfind r'.route_cache k = some t :=
      pick_route_caches hpick hk1
    exact pick_route_cache_hit (r'.reload nr ndr) lookup₂ sess₂ k t hk2
      hcached

/-- C2 witness: a concrete cache hit — a router whose cache maps
`google.com` to `tag1` returns `tag1` for `www.google.com` with its state
unchanged. -/
theorem claim_C2_witness :
    cacheKeyOf (⟨.Tcp, ⟨some "www.google.com", none, 443⟩,
      "in"⟩ : Session).destination = some "google.com" ∧
    (Router.mk [] false [("google.com", "tag1")]).pick_route
      (fun _ => .ok []) ⟨.Tcp, ⟨some "www.google.com", none, 443⟩, "in"⟩ =
      .ok ("tag1", Router.mk [] false [("google.com", "tag1")]) :=
  ⟨rfl, claim_C2_cache_monotone.1 _ _ _ "google.com" "tag1" rfl rfl⟩

/-- C4: `pick_route` can fail only when the DNS-assisted re-match step's
external lookup fails; a destination with neither domain nor IP yields
`"Direct"` with the router unchanged (nothing cached); and in every
fall-through case — no DNS re-match applicable, a successful lookup
returning no address, or a re-match that hits no rule — it returns and
caches the default tag `"trojan_out"`. -/
theorem claim_C4_error_cases :
    (∀ (r : Router) (lookup : String → Except String (List IpAddr))
        (sess : Session) (e : String),
      r.pick_route lookup sess = .error e →
      ∃ d msg, sess.destination.domain? = some d ∧
        r.domain_resolve = true ∧ lookup d = .error msg) ∧
    (∀ (r : Router) (lookup : String → Except String (List IpAddr))
        (sess : Session),
      sess.destination.domain? = none → sess.destination.ip? = none →
      r.pick_route lookup sess = .ok ("Direct", r)) ∧
    (∀ (r : Router) (lookup : String → Except String (List IpAddr))
        (sess : Session) (k : String),
      cacheKeyOf sess.destination = some k →
      mfind r.route_cache k = none →
      r.rules.find? (fun rule => rule.condition sess) = none →
      (sess.destination.domain? = none ∨ r.domain_resolve = false ∨
        ∃ d, sess.destination.domain? = some d ∧ r.domain_resolve = true ∧
          (lookup d = .ok [] ∨
           ∃ ip0 rest, lookup d = .ok (ip0 :: rest) ∧
             r.rules.find? (fun rule => rule.condition
               { sess with destination :=
                   { domain? := none, ip? := some ip0
                     port := sess.destination.port } }) = none)) →
      r.pick_route lookup sess =
        .ok ("trojan_out",
          { r with route_cache := mset r.route_cache k "trojan_out" })) :=
  ⟨fun r lookup sess e h => pick_route_error h, pick_route_direct,
    pick_route_default⟩

/-- C4 witness: the malformed destination returns `"Direct"` unchanged; a
failing resolver is the source of a concrete routing error; and each
fall-through case — resolution disabled, a lookup returning no address,
and a re-match hitting no rule — caches the default tag. -/
theorem claim_C4_witness :
    (Router.mk [] false []).pick_route (fun _ => .ok [])
      ⟨.Tcp, ⟨none, none, 0⟩, "in"⟩ =
      .ok ("Direct", Router.mk [] false []) ∧
    (∃ d msg,
      (⟨.Tcp, ⟨some "www.google.com", none, 443⟩, "in"⟩ :
        Session).destination.domain? = some d ∧
      (Router.mk [] true []).domain_resolve = true ∧
      (fun _ : String =>
        (.error "boom" : Except String (List IpAddr))) d = .error msg) ∧
    (Router.mk [] false []).pick_route (fun _ => .ok [])
      ⟨.Tcp, ⟨some "www.google.com", none, 443⟩, "in"⟩ =
      .ok ("trojan_out",
        Router.mk [] false [("google.com", "trojan_out")]) ∧
    (Router.mk [] true []).pick_route (fun _ => .ok [])
      ⟨.Tcp, ⟨some "www.google.com", none, 443⟩, "in"⟩ =
      .ok ("trojan_out",
        Router.mk [] true [("google.com", "trojan_out")]) ∧
    (Router.mk [] true []).pick_route
      (fun _ => .ok [.v4 (ip_to_u32 8 8 8 8)])
      ⟨.Tcp, ⟨some "www.google.com", none, 443⟩, "in"⟩ =
      .ok ("trojan_out",
        Router.mk [] true [("google.com", "trojan_out")]) :=
  ⟨claim_C4_error_cases.2.1 _ _ _ rfl rfl,
    claim_C4_error_cases.1 (Router.mk [] true []) _
      ⟨.Tcp, ⟨some "www.google.com", none, 443⟩, "in"⟩
      "lookup www.google.com failed: boom" (by rfl),
    claim_C4_error_cases.2.2 (Router.mk [] false []) _
      ⟨.Tcp, ⟨some "www.google.com", none, 443⟩, "in"⟩ "google.com"
      rfl rfl rfl (Or.inr (Or.inl rfl)),
    claim_C4_error_cases.2.2 (Router.mk [] true []) _
      ⟨.Tcp, ⟨some "www.google.com", none, 443⟩, "in"⟩ "google.com"
      rfl rfl rfl
      (Or.inr (Or.inr ⟨"www.google.com", rfl, rfl, Or.inl rfl⟩)),
    claim_C4_error_cases.2.2 (Router.mk [] true [])
      (fun _ => .ok [.v4 (ip_to_u32 8 8 8 8)])
      ⟨.Tcp, ⟨some "www.google.com", none, 443⟩, "in"⟩ "google.com"
      rfl rfl rfl
      (Or.inr (Or.inr ⟨"www.google.com", rfl, rfl,
        Or.inr ⟨.v4 (ip_to_u32 8 8 8 8), [], rfl, rfl⟩⟩))⟩

theorem string_mk_toList (s : String) : String.mk s.toList = s := rfl

/-- C6: the cache key for a domain destination is its last two labels
joined by a dot (the full domain when it has at most two labels); for an
IP destination it is the IP's string form; consequently a tag cached for
one domain is returned for any other domain with the same last two labels
no matter what the rule list holds. -/
theorem claim_C6_cache_key :
    (∀ (dest : Destination) (d : String), dest.domain? = some d →
      cacheKeyOf dest = some (String.mk (joinDotsL
        ((splitOnChar '.' d.toList).drop
          ((splitOnChar '.' d.toList).length - 2))))) ∧
    (∀ (dest : Destination) (d : String), dest.domain? = some d →
      (splitOnChar '.' d.toList).length ≤ 2 → cacheKeyOf dest = some d) ∧
    (∀ (dest : Destination) (ip : IpAddr), dest.domain? = none →
      dest.ip? = some ip → cacheKeyOf dest = some (ipString ip)) ∧
    (∀ (r : Router)
        (lookup₁ lookup₂ : String → Except String (List IpAddr))
        (sess₁ sess₂ : Session) (t : String) (r' : Router)
        (rs₂ : List RRule) (dr₂ : Bool) (d₁ d₂ : String),
      r.pick_route lookup₁ sess₁ = .ok (t, r') →
      sess₁.destination.domain? = some d₁ →
      sess₂.destination.domain? = some d₂ →
      domainCacheKey d₁ = domainCacheKey d₂ →
      (r'.reload rs₂ dr₂).pick_route lookup₂ sess₂ =
        .ok (t, r'.reload rs₂ dr₂)) := by
  refine ⟨?_, ?_, ?_, ?_⟩
  · intro dest d hd
    simp only [cacheKeyOf, hd, domainCacheKey]
    rw [List.take_reverse, List.reverse_reverse]
  · intro dest d hd hlen
    simp only [cacheKeyOf, hd, domainCacheKey]
    rw [List.take_reverse, List.reverse_reverse,
      show (splitOnChar '.' d.toList).length - 2 = 0 by omega,
      List.drop_zero, joinDotsL_splitOnChar, string_mk_toList]
  · intro dest ip hd hip
    simp [cacheKeyOf, hd, hip]
  · intro r lookup₁ lookup₂ sess₁ sess₂ t r' rs₂ dr₂ d₁ d₂ hpick hd1 hd2
      hkey
    have hk1 : cacheKeyOf sess₁.destination = some (domainCacheKey d₁) := by
      simp [cacheKeyOf, hd1]
    have hk2 : cacheKeyOf sess₂.destination = some (domainCacheKey d₁) := by
      simp [cacheKeyOf, hd2, hkey]
    have hcached : mfind r'.route_cache (domainCacheKey d₁) = some t :=
      pick_route_caches hpick hk1
    exact pick_route_cache_hit (r'.reload rs₂ dr₂) lookup₂ sess₂
      (domainCacheKey d₁) t hk2 hcached

/-- C6 witness: `www.google.com` and `api.google.com` share the key
`google.com`; a tag from a `pick_route` on the first is returned for the
second after the rules are replaced wholesale. -/
theorem claim_C6_witness :
    cacheKeyOf ⟨some "www.google.com", none, 443⟩ =
      some (String.mk (joinDotsL
        ((splitOnChar '.' ("www.google.com").toList).drop
          ((splitOnChar '.' ("www.google.com").toList).length - 2)))) ∧
    domainCacheKey "www.google.com" = "google.com" ∧
    domainCacheKey "api.google.com" = "google.com" ∧
    cacheKeyOf ⟨some "localhost", none, 80⟩ = some "localhost" ∧
    cacheKeyOf ⟨none, some (.v4 (ip_to_u32 8 8 4 4)), 53⟩ =
      some (ipString (.v4 (ip_to_u32 8 8 4 4))) :=
  ⟨claim_C6_cache_key.1 ⟨some "www.google.com", none, 443⟩ _ rfl,
    rfl, rfl,
    claim_C6_cache_key.2.1 ⟨some "localhost", none, 80⟩ "localhost" rfl
      (by decide),
    claim_C6_cache_key.2.2.1 ⟨none, some (.v4 (ip_to_u32 8 8 4 4)), 53⟩ _
      rfl rfl⟩

/-- C5: on the configured range (so that allocation cannot fail),
`generate_fake_response` fails exactly under the spec's failure
condition — and otherwise returns a response. -/
theorem claim_C5_generate_fails_iff (s : FakeDnsImpl)
    (req? : Option DnsMessage)
    (hmin : s.min_cursor = ip_to_u32 198 18 0 0)
    (hmax : s.max_cursor = ip_to_u32 198 18 255 255)
    (hlo : s.min_cursor ≤ s.cursor) (hhi : s.cursor ≤ s.max_cursor) :
    ((s.generate_fake_response req?).1.isOk = false ↔
      specGenerateFails s req?) := by
  cases req? with
  | none => exact iff_of_true rfl trivial
  | some req =>
    rcases hq : req.queries with _ | ⟨q, qs⟩
    · simp only [FakeDnsImpl.generate_fake_response, specGenerateFails, hq]
      exact iff_of_true rfl trivial
    · simp only [FakeDnsImpl.generate_fake_response, specGenerateFails, hq]
      split_ifs with h1 h2 h3
      · exact iff_of_true rfl (Or.inl h1)
      · exact iff_of_true rfl (Or.inr (Or.inl h2))
      · have hrhs : ¬ (q.qclass ≠ DNSClass.IN ∨
            (q.qtype ≠ .A ∧ q.qtype ≠ .AAAA ∧ q.qtype ≠ .HTTPS) ∨
            s.accept (stripRootDot q.name) = false) := by
          rintro (h | h | h)
          · exact h1 h
          · exact h2 h
          · rw [h3] at h
            cases h
        rcases hf : mfind s.domain_to_ip (stripRootDot q.name) with _ | ip
        · rcases halloc : s.allocate_ip (stripRootDot q.name) with ⟨res, s'⟩
          have hres : res = .ok s.cursor := by
            have h := allocate_ip_ok s (stripRootDot q.name) hmin hmax hlo
              hhi
            rw [halloc] at h
            exact h
          subst hres
          exact iff_of_false (by simp [Except.isOk, Except.toBool]) hrhs
        · exact iff_of_false (by simp [Except.isOk, Except.toBool]) hrhs
      · refine iff_of_true rfl (Or.inr (Or.inr ?_))
        cases hacc : s.accept (stripRootDot q.name) with
        | false => rfl
        | true => exact absurd hacc h3

/-- C5 witness: at the fresh allocator, the `A example.com` query
succeeds (the failure condition does not hold), matching the
characterization. -/
theorem claim_C5_witness :
    ((FakeDnsImpl.new .Exclude).min_cursor = ip_to_u32 198 18 0 0 ∧
      (FakeDnsImpl.new .Exclude).max_cursor = ip_to_u32 198 18 255 255 ∧
      (FakeDnsImpl.new .Exclude).min_cursor ≤
        (FakeDnsImpl.new .Exclude).cursor ∧
      (FakeDnsImpl.new .Exclude).cursor ≤
        (FakeDnsImpl.new .Exclude).max_cursor) ∧
    (((FakeDnsImpl.new .Exclude).generate_fake_response
        (some reqC1)).1.isOk = false ↔
      specGenerateFails (FakeDnsImpl.new .Exclude) (some reqC1)) :=
  ⟨⟨rfl, rfl, by decide, by decide⟩,
    claim_C5_generate_fails_iff (FakeDnsImpl.new .Exclude) (some reqC1)
      rfl rfl (by decide) (by decide)⟩
